import Mathlib

/-!
Shallow embedding of the over-1.5-goals trading bot (`src/bot.py`).

Monetary amounts and exchange prices are modelled as exact rationals;
`round(x, 2)` is modelled as round-half-to-even at two decimal places.
Python dictionary lookups with defaults (`SET.get(k, d)`) are modelled as
`Option` fields read with `Option.getD`.  Python truthiness of a possibly
absent number (`if lay_price:`, `matched_size or stake`) is modelled
explicitly: absent and zero are falsy.
-/

namespace Over15Bot

/-- Round-half-to-even on rationals: the integer nearest to `q`, ties going
to the even integer.  This models the rounding mode of Python `round`. -/
def rne (q : ℚ) : ℤ :=
  if Int.fract q < 1/2 then ⌊q⌋
  else if 1/2 < Int.fract q then ⌊q⌋ + 1
  else if ⌊q⌋ % 2 = 0 then ⌊q⌋ else ⌊q⌋ + 1

/-- `round(x, 2)` from the source: round to 2 decimal places. -/
def round2 (q : ℚ) : ℚ := (rne (q * 100) : ℚ) / 100

/-- Python `str.lower()` (the names involved are ASCII). -/
def pyLower (s : String) : String := ⟨s.data.map Char.toLower⟩

/-- Python `str.strip()`: drop leading and trailing whitespace. -/
def pyStrip (s : String) : String :=
  ⟨((s.data.dropWhile Char.isWhitespace).reverse.dropWhile Char.isWhitespace).reverse⟩

/-- Python substring containment `pat in s`. -/
def containsSub (s pat : String) : Bool :=
  (List.range (s.length + 1)).any fun i => List.isPrefixOf pat.data (s.data.drop i)

/-! ## Data model

Mirrors the objects the source reads: betfairlightweight market-book runners
(`safe_best_back`, `safe_best_lay`), catalogue markets (`find_over15_market`),
API-Football fixture snapshots, place-order responses, and the `settings`
section of `config.yml` (`SET`).  Fields read via `SET.get(k, default)` or
`getattr(x, k, None)` are `Option`s. -/

/-- One entry of a Betfair price ladder (`atb[0]` has `.price` and `.size`). -/
structure PriceSize where
  price : Option ℚ
  size : Option ℚ
deriving DecidableEq

/-- The `ex` attribute of a book runner: both ladders may be absent. -/
structure ExchangePrices where
  available_to_back : Option (List PriceSize)
  available_to_lay : Option (List PriceSize)
deriving DecidableEq

/-- A runner inside a market book (`book.runners`). -/
structure BookRunner where
  selection_id : ℤ
  ex : Option ExchangePrices
deriving DecidableEq

/-- A market book returned by `get_market_book` (`book.runners or []` merges
an absent runner list with the empty one). -/
structure MarketBook where
  runners : List BookRunner
deriving DecidableEq

/-- A runner descriptor from the market catalogue (`bf_market.runners`). -/
structure CatRunner where
  runner_name : Option String
  selection_id : ℤ
deriving DecidableEq

/-- A catalogue market returned by `list_market_catalogue`. -/
structure CatalogueMarket where
  market_id : String
  market_name : Option String
  runners : List CatRunner
deriving DecidableEq

/-- An API-Football live fixture as read by the bot: elapsed minute from
`fixture.status.elapsed` (nullable) and the two goal counts from `goals`
(each nullable, read as `score.get(side, 0) or 0`). -/
structure FixtureSnapshot where
  fixture_id : ℤ
  elapsed : Option ℕ
  goals_home : Option ℕ
  goals_away : Option ℕ
deriving DecidableEq

/-- One instruction report inside a place-orders response. -/
structure InstructionReport where
  status : String
deriving DecidableEq

/-- A place-orders response (`resp.status`, `resp.instruction_reports`). -/
structure PlaceResp where
  status : String
  instruction_reports : Option (List InstructionReport)
deriving DecidableEq

/-- The `settings` section of the configuration.  Keys read with
`SET[k]` are plain fields; keys read with `SET.get(k, d)` are `Option`s and
the reading site applies the default `d`. -/
structure Settings where
  min_minute : ℕ
  max_minute : ℕ
  poll_seconds : ℕ
  market_check_retry : ℕ
  market_check_delay : ℕ
  min_back_stake : Option ℚ
  test_mode : Option Bool
  min_liability_mode : Option Bool
  max_test_liability : Option ℚ
  test_stake_cap : Option ℚ
  test_stake : Option ℚ
  stake : Option ℚ
  max_live_liability : Option ℚ
  max_price : Option ℚ
  cashout_minute : Option ℕ

/-! ## Quote Accessor (`safe_best_back`, `safe_best_lay`, bot.py 123-151) -/

/-- `safe_best_back(runner)` from the source: four explicit guards, one per
link of the chain runner → ex → available_to_back → top entry price.  The
Python truthiness test `if not atb` rejects both an absent and an empty
ladder; the redundant `if not len(atb)` re-checks emptiness. -/
def safe_best_back (runner : Option BookRunner) : Option ℚ :=
  match runner with
  | none => none
  | some r =>
    match r.ex with
    | none => none
    | some ex =>
      match ex.available_to_back with
      | none => none
      | some atb =>
        match atb with
        | [] => none
        | e :: _ => e.price

/-- `safe_best_lay(runner)` from the source, same shape on the lay ladder. -/
def safe_best_lay (runner : Option BookRunner) : Option ℚ :=
  match runner with
  | none => none
  | some r =>
    match r.ex with
    | none => none
    | some ex =>
      match ex.available_to_lay with
      | none => none
      | some atl =>
        match atl with
        | [] => none
        | e :: _ => e.price

/-- Modelled from the spec words of the Quote Accessor contract: follow the
chain runner → exchange-prices → back ladder → top entry → price, and be
absent as soon as any link is missing or the ladder is empty. -/
def specTopBack (runner : Option BookRunner) : Option ℚ :=
  (((runner.bind fun r => r.ex).bind fun e => e.available_to_back).bind
    List.head?).bind fun e => e.price

/-- Modelled from the spec words of the Quote Accessor contract, lay side. -/
def specTopLay (runner : Option BookRunner) : Option ℚ :=
  (((runner.bind fun r => r.ex).bind fun e => e.available_to_lay).bind
    List.head?).bind fun e => e.price

/-- Python float truthiness of a possibly absent price: `None` and `0.0` are
falsy (`if safe_best_back(r):`, `if lay_price:`). -/
def pyTruthyQ (o : Option ℚ) : Bool := decide (o.getD 0 ≠ 0)

/-! ## Stake Sizer (`compute_stake_for_liability`, bot.py 153-192) -/

/-- `compute_stake_for_liability(odds)` from the source.  `odds` is `none`
for the Python `None` argument.  All `SET.get` defaults are as in the
source: min_back_stake 2.0, test_mode True, min_liability_mode True,
max_test_liability 1.0, test_stake_cap min_back_stake, test_stake 0.5,
stake 5.0. -/
def compute_stake_for_liability (s : Settings) (odds : Option ℚ) : ℚ :=
  match odds with
  | none => 0
  | some o =>
    if o ≤ 1 then 0
    else
      let min_back_stake := s.min_back_stake.getD 2
      let test_mode := s.test_mode.getD true
      let min_liability_mode := s.min_liability_mode.getD true
      if test_mode && min_liability_mode then
        let max_liab := s.max_test_liability.getD 1
        let stake0 := max_liab / (o - 1)
        let stake1 := if stake0 < min_back_stake then min_back_stake else stake0
        let stake_cap := s.test_stake_cap.getD min_back_stake
        round2 (min stake1 stake_cap)
      else
        let stake0 := if test_mode then s.test_stake.getD (1/2) else s.stake.getD 5
        let blocked := match s.max_live_liability with
          | some ml => decide ((o - 1) * stake0 > ml)
          | none => false
        if blocked then 0
        else round2 (if stake0 < min_back_stake then min_back_stake else stake0)

/-! ## Market Resolver (`find_over15_market`, bot.py 93-116) -/

/-- Exact-name test of the first catalogue loop:
`(m.market_name or "").strip().lower() == "over/under 1.5 goals"`. -/
def isExactOver15 (name : Option String) : Bool :=
  pyLower (pyStrip (name.getD "")) == "over/under 1.5 goals"

/-- Fuzzy-name test of the second catalogue loop: the lowered name contains
both "over/under" and "1.5". -/
def isFuzzyOver15 (name : Option String) : Bool :=
  let n := pyLower (name.getD "")
  containsSub n "over/under" && containsSub n "1.5"

/-- `find_over15_market` over the catalogue result list: first the exact
loop, then the fuzzy loop, else `None`. -/
def find_over15_market (markets : List CatalogueMarket) : Option CatalogueMarket :=
  match markets.find? (fun m => isExactOver15 m.market_name) with
  | some m => some m
  | none => markets.find? (fun m => isFuzzyOver15 m.market_name)

/-- The retry loop of `handle_match` (bot.py 264-272): one entry per attempt,
`none` standing for both "nothing found" and "find_over15_market raised"
(the exception is caught and logged).  The loop keeps the first success. -/
def retryFind (attempts : List (Option CatalogueMarket)) : Option CatalogueMarket :=
  match attempts with
  | [] => none
  | some m :: _ => some m
  | none :: rest => retryFind rest

/-! ## Candidate Detector (bot.py 242-257 and the main-loop prefilter 423-432) -/

/-- The entry filter at the top of `handle_match`: return early when the
elapsed minute is `None`, when either goal count (read as
`score.get(side, 0) or 0`) is nonzero, or when the minute is outside
`[min_minute, max_minute]`. -/
def passesEntryFilter (s : Settings) (e : FixtureSnapshot) : Bool :=
  match e.elapsed with
  | none => false
  | some minute =>
    if e.goals_home.getD 0 ≠ 0 ∨ e.goals_away.getD 0 ≠ 0 then false
    else decide (s.min_minute ≤ minute ∧ minute ≤ s.max_minute)

/-- The duplicate of the same filter inside `main_loop` (bot.py 425-432),
applied before a `handle_match` task is spawned.  The Python truthiness test
`if goals.get("home", 0) or goals.get("away", 0)` treats `None` and `0`
alike, i.e. it skips exactly when a goal count read with default 0 is
nonzero. -/
def mainLoopPrefilter (s : Settings) (e : FixtureSnapshot) : Bool :=
  match e.elapsed with
  | none => false
  | some minute =>
    if e.goals_home.getD 0 ≠ 0 ∨ e.goals_away.getD 0 ≠ 0 then false
    else decide (s.min_minute ≤ minute ∧ minute ≤ s.max_minute)

/-! ## Selection resolution and entry decision (bot.py 287-323) -/

/-- Selection resolution inside `handle_match`: first the catalogue runner
whose name contains "over" (case-folded) and "1.5" (on the raw name), looked
up in the book by selection id; if that fails, the first book runner with a
truthy back price. -/
def resolveSelection (m : CatalogueMarket) (book : MarketBook) :
    Option (ℤ × BookRunner) :=
  let overSel := (m.runners.find? fun rc =>
    containsSub (pyLower (rc.runner_name.getD "")) "over" &&
      containsSub (rc.runner_name.getD "") "1.5").map fun rc => rc.selection_id
  let fallback := (book.runners.find? fun r =>
    pyTruthyQ (safe_best_back (some r))).map fun r => (r.selection_id, r)
  match overSel with
  | some sid =>
    match book.runners.find? fun r => r.selection_id == sid with
    | some r => some (sid, r)
    | none => fallback
  | none => fallback

/-- The entry decision of `handle_match` after a market and book exist
(bot.py 287-323): resolve a selection, require a back price, require it at
most `max_price` (default 50.0), require a positive stake from the Stake
Sizer.  Returns the selection id, entry back price and stake of the order
that will be placed, or `none` when the fixture is abandoned. -/
def entryDecision (s : Settings) (m : CatalogueMarket) (book : MarketBook) :
    Option (ℤ × ℚ × ℚ) :=
  match resolveSelection m book with
  | none => none
  | some (sel, runner) =>
    match safe_best_back (some runner) with
    | none => none
    | some bb =>
      if bb > s.max_price.getD 50 then none
      else
        let st := compute_stake_for_liability s (some bb)
        if st ≤ 0 then none else some (sel, bb, st)

/-- The matched-size bookkeeping after `place_back_order` (bot.py 337-345):
zero when the placement returned `None` (exception or guard) or a
non-SUCCESS status, else `stake` added once per SUCCESS instruction
report. -/
def matchedSize (resp : Option PlaceResp) (stake : ℚ) : ℚ :=
  match resp with
  | none => 0
  | some r =>
    if r.status == "SUCCESS" then
      (((r.instruction_reports.getD []).filter fun ir =>
        ir.status == "SUCCESS").length : ℚ) * stake
    else 0

/-! ## Position Monitor (`wait_and_cashout`, bot.py 348-408)

The loop is driven by one `MonPoll` per iteration: the outcome of the
single-fixture re-fetch, plus the market book `get_market_book` would return
if a trigger fires on that iteration.  The trace records the order-placement
calls and which exit trigger fired. -/

/-- Outcome of one fixture re-fetch: a raised/transport error (caught at
bot.py 403), an empty `response` array, or a fixture payload with nullable
elapsed minute and goal counts (each read with `... or 0`). -/
inductive FetchOut where
  | err
  | empty
  | snap (elapsed : Option ℕ) (goalsHome goalsAway : Option ℕ)

/-- Outcome of the `get_market_book` call inside a triggered branch
(bot.py 372, 388).  The call has no handler of its own, so three things can
happen: it raises (`list_market_book` network failure) and the raise is
caught by the loop-wide `except` at bot.py 403 — the iteration is abandoned
and the loop re-polls; it returns nothing (`mb[0] if mb else None` gives a
falsy book, `if not market_book: break`) — the monitor terminates with no
hedge; or it returns a book and the hedge attempt proceeds. -/
inductive BookFetch where
  | raised
  | missing
  | ok (b : MarketBook)
deriving DecidableEq

/-- One iteration of the monitor loop: the fixture re-fetch outcome and, if
a trigger fires on this iteration, the outcome the cash-out
`get_market_book` call would have. -/
structure MonPoll where
  fetch : FetchOut
  book : BookFetch

/-- Observable actions of one fixture handler, in order. -/
inductive Action where
  | backOrder (marketId : String) (selectionId : ℤ) (size price : ℚ)
  | layOrder (marketId : String) (selectionId : ℤ) (size price : ℚ)
  | goalTrigger
  | timeTrigger
deriving DecidableEq

/-- The tail of a triggered branch once `get_market_book` has returned a
book (bot.py 376-382 and 392-398): look the held selection up, take
`safe_best_lay`; place a LAY of `matched_size or stake` at that price only
when the price is truthy (`if lay_price:`); then `break` either way
(`place_lay_order` catches its own exceptions, so the lay call never
re-enters the loop). -/
def hedgeActions (marketId : String) (selId : ℤ) (stake matched : ℚ)
    (b : MarketBook) : List Action :=
  if pyTruthyQ (safe_best_lay (b.runners.find? fun r => r.selection_id == selId)) then
    [Action.layOrder marketId selId (if matched ≠ 0 then matched else stake)
      ((safe_best_lay (b.runners.find? fun r => r.selection_id == selId)).getD 0)]
  else []

/-- `wait_and_cashout` as a fold over the iteration inputs.  A fixture fetch
error or an empty response sleeps and re-polls.  A goal (checked first) or
the cash-out minute enters a trigger branch, whose fate depends on the book
fetch: a book yields one hedge attempt and `break`; no book yields `break`
with no hedge; a raised book fetch is caught by the loop-wide `except`
(bot.py 403-405) and the loop sleeps and re-polls — the monitor does not
terminate and the trigger can fire again later.  An exhausted input list
models a monitor still polling. -/
def monitor (cashoutMinute : ℕ) (marketId : String) (selId : ℤ)
    (stake matched : ℚ) : List MonPoll → List Action
  | [] => []
  | ⟨.err, _⟩ :: rest => monitor cashoutMinute marketId selId stake matched rest
  | ⟨.empty, _⟩ :: rest => monitor cashoutMinute marketId selId stake matched rest
  | ⟨.snap el hg ag, bk⟩ :: rest =>
    if hg.getD 0 ≠ 0 ∨ ag.getD 0 ≠ 0 then
      match bk with
      | .raised => Action.goalTrigger :: monitor cashoutMinute marketId selId stake matched rest
      | .missing => [Action.goalTrigger]
      | .ok b => Action.goalTrigger :: hedgeActions marketId selId stake matched b
    else if el.getD 0 ≥ cashoutMinute then
      match bk with
      | .raised => Action.timeTrigger :: monitor cashoutMinute marketId selId stake matched rest
      | .missing => [Action.timeTrigger]
      | .ok b => Action.timeTrigger :: hedgeActions marketId selId stake matched b
    else monitor cashoutMinute marketId selId stake matched rest

/-! ## One fixture handler (`handle_match`, bot.py 234-409) -/

/-- The environment of one `handle_match` run: the outcome of each market
search attempt, of the market-book fetch, of the entry order placement
(`none` when `place_orders` raised or the connection failed), and the
monitor iterations. -/
structure HandleEnv where
  marketAttempts : List (Option CatalogueMarket)
  book : Option MarketBook
  backPlace : Option PlaceResp
  polls : List MonPoll

/-- `handle_match` as a trace of order calls and triggers: entry filter,
market search with retries, market book, selection/price/stake decision,
entry BACK order call, then the monitor loop.  Note the source awaits
`wait_and_cashout()` unconditionally after `place_back_order`, whatever the
placement returned. -/
def handle_match (s : Settings) (e : FixtureSnapshot) (env : HandleEnv) :
    List Action :=
  if passesEntryFilter s e then
    match retryFind env.marketAttempts with
    | none => []
    | some m =>
      match env.book with
      | none => []
      | some book =>
        match entryDecision s m book with
        | none => []
        | some (sel, bb, st) =>
          let matched := matchedSize env.backPlace st
          Action.backOrder m.market_id sel st bb ::
            monitor (s.cashout_minute.getD 71) m.market_id sel st matched env.polls
  else []

/-- Recognizer for LAY order calls in a trace. -/
def isLay : Action → Bool
  | .layOrder _ _ _ _ => true
  | _ => false

/-- Recognizer for BACK order calls in a trace. -/
def isBack : Action → Bool
  | .backOrder _ _ _ _ => true
  | _ => false

/-- Number of LAY order calls in a trace. -/
def countLay (l : List Action) : ℕ := (l.filter isLay).length

/-! ## Fixture Orchestrator (`main_loop`, bot.py 412-441)

`main_loop` builds one `handle_match(f)` coroutine per prefiltered fixture
and then runs `await asyncio.gather(*tasks)`: the gather call returns only
once every spawned task has reached its terminal state, and only then does
the loop sleep and start the next cycle.  The trace below records, in the
order the event loop observes them, the start of each poll cycle and the
termination of each spawned handler.  Interleavings of the handlers among
themselves within one cycle are irrelevant to the claims and are kept in
spawn order. -/

/-- The input of one orchestrator cycle: the fixtures returned by
`get_live_fixtures`, each with the environment its handler would consume. -/
structure CycleInput where
  fixtures : List (FixtureSnapshot × HandleEnv)

/-- Cycle-level events: the orchestrator starting poll cycle `n`, or the
handler spawned in cycle `n` for a fixture reaching its terminal state. -/
inductive OrchEvent where
  | pollCycle (n : ℕ)
  | monitorDone (n : ℕ) (fixtureId : ℤ)
deriving DecidableEq

/-- The cycle index an event belongs to. -/
def eventCycle : OrchEvent → ℕ
  | .pollCycle n => n
  | .monitorDone n _ => n

/-- Events of one cycle: the poll, then one termination per fixture passing
the main-loop prefilter (gather returns only after all of them). -/
def cycleEvents (s : Settings) (n : ℕ) (c : CycleInput) : List OrchEvent :=
  OrchEvent.pollCycle n ::
    (c.fixtures.filter fun fe => mainLoopPrefilter s fe.1).map fun fe =>
      OrchEvent.monitorDone n fe.1.fixture_id

/-- The orchestrator trace from cycle index `n` on. -/
def mainLoopTraceFrom (s : Settings) : ℕ → List CycleInput → List OrchEvent
  | _, [] => []
  | n, c :: cs => cycleEvents s n c ++ mainLoopTraceFrom s (n + 1) cs

/-- The orchestrator trace of `main_loop` over a finite run of cycles. -/
def main_loop_trace (s : Settings) (cs : List CycleInput) : List OrchEvent :=
  mainLoopTraceFrom s 0 cs

/-! ## Concrete data used by witnesses and counterexamples -/

/-- A plain test-mode configuration: liability sizing on, cap and live
options unset, window 1-80. -/
def exSettings : Settings :=
  { min_minute := 1, max_minute := 80, poll_seconds := 30,
    market_check_retry := 3, market_check_delay := 5,
    min_back_stake := some 2, test_mode := some true,
    min_liability_mode := some true, max_test_liability := some 1,
    test_stake_cap := none, test_stake := none, stake := none,
    max_live_liability := none, max_price := none, cashout_minute := none }

/-- A catalogue market with the exact display name and one Over runner. -/
def exCatMarket : CatalogueMarket :=
  { market_id := "1.23", market_name := some "Over/Under 1.5 Goals",
    runners := [{ runner_name := some "Over 1.5 Goals", selection_id := 7 }] }

/-- Entry-time exchange prices: best back 2.0, best lay 2.3. -/
def exPricesEntry : ExchangePrices :=
  { available_to_back := some [{ price := some 2, size := some 100 }],
    available_to_lay := some [{ price := some (23/10), size := some 50 }] }

/-- Cash-out-time exchange prices with best lay 1.5, better than entry 2.0. -/
def exPricesLaySafe : ExchangePrices :=
  { available_to_back := none,
    available_to_lay := some [{ price := some (3/2), size := some 10 }] }

/-- Cash-out-time exchange prices with best lay 2.3, worse than entry 2.0. -/
def exPricesLayWorse : ExchangePrices :=
  { available_to_back := none,
    available_to_lay := some [{ price := some (23/10), size := some 50 }] }

/-- The entry-time book: best back 2.0 on selection 7. -/
def exBook : MarketBook :=
  { runners := [{ selection_id := 7, ex := some exPricesEntry }] }

/-- A cash-out-time book whose best lay 1.5 is better than the entry 2.0. -/
def exHedgeBookSafe : MarketBook :=
  { runners := [{ selection_id := 7, ex := some exPricesLaySafe }] }

/-- A cash-out-time book whose best lay 2.3 is worse than the entry 2.0. -/
def exHedgeBookWorse : MarketBook :=
  { runners := [{ selection_id := 7, ex := some exPricesLayWorse }] }

/-- A 0-0 fixture at minute 10. -/
def exSnap : FixtureSnapshot :=
  { fixture_id := 101, elapsed := some 10, goals_home := some 0, goals_away := some 0 }

/-- A fully successful place-orders response with one instruction report. -/
def exPlaceOk : PlaceResp :=
  { status := "SUCCESS", instruction_reports := some [{ status := "SUCCESS" }] }

/-- Environment of a run whose entry order placement fails (`place_back_order`
returns `None`), after which a goal is scored and a lay price exists. -/
def envEntryFail : HandleEnv :=
  { marketAttempts := [some exCatMarket], book := some exBook, backPlace := none,
    polls := [{ fetch := .snap (some 12) (some 1) (some 0), book := .ok exHedgeBookSafe }] }

/-- Environment of a run whose entry order succeeds and whose cash-out book
only offers a lay price worse than the entry price. -/
def envLayWorse : HandleEnv :=
  { marketAttempts := [some exCatMarket], book := some exBook,
    backPlace := some exPlaceOk,
    polls := [{ fetch := .snap (some 40) (some 1) (some 0), book := .ok exHedgeBookWorse }] }

/-- Two monitor iterations: a goal is already scored on both; the first
book fetch raises, the second returns `exHedgeBookSafe`. -/
def exRaisePolls : List MonPoll :=
  [{ fetch := .snap (some 12) (some 1) (some 0), book := .raised },
   { fetch := .snap (some 13) (some 1) (some 0), book := .ok exHedgeBookSafe }]

/-- A fixture whose elapsed minute is absent. -/
def exNoMinute : FixtureSnapshot :=
  { fixture_id := 102, elapsed := none, goals_home := some 0, goals_away := some 0 }

/-- A catalogue market matching only the fuzzy rule (contains "over/under"
and "1.5" but is not the exact display name). -/
def exFuzzyMarket : CatalogueMarket :=
  { market_id := "1.22", market_name := some "First Half Goals Over/Under 1.5",
    runners := [] }

/-- `exSettings` with a configured `test_stake_cap` of 1.5, below the venue
minimum stake of 2. -/
def exSettingsCap : Settings := { exSettings with test_stake_cap := some (3/2) }

/-- `exSettings` with a venue minimum stake of 0.5. -/
def exSettingsHalf : Settings := { exSettings with min_back_stake := some (1/2) }

/-- Two orchestrator cycles: the first spawns one handler for `exSnap`, the
second has no fixtures. -/
def exCycles : List CycleInput :=
  [{ fixtures := [(exSnap, envLayWorse)] }, { fixtures := [] }]

/-! ## Helper lemmas -/

/-- Round-half-to-even never overshoots by more than one half. -/
theorem rne_le (q : ℚ) : (rne q : ℚ) ≤ q + 1/2 := by
  have hfl := Int.floor_le q
  have hsub : (⌊q⌋ : ℚ) = q - Int.fract q := by
    unfold Int.fract; ring
  unfold rne
  split
  · linarith
  · split
    · push_cast
      rw [hsub] at *
      linarith
    · split
      · linarith
      · push_cast
        rw [hsub] at *
        linarith

/-- Rounding to 2 decimals adds at most half a cent. -/
theorem round2_le (q : ℚ) : round2 q ≤ q + 1/200 := by
  unfold round2
  have h := rne_le (q * 100)
  have h100 : (0:ℚ) < 100 := by norm_num
  rw [div_le_iff₀ h100]
  linarith

/-- The Stake Sizer returns 0 on any odds at most 1. -/
theorem compute_stake_of_le_one (s : Settings) (o : ℚ) (h : o ≤ 1) :
    compute_stake_for_liability s (some o) = 0 := by
  simp [compute_stake_for_liability, h]

/-- A positive Stake Sizer result forces odds above 1. -/
theorem one_lt_of_compute_stake_pos (s : Settings) (o : ℚ)
    (h : 0 < compute_stake_for_liability s (some o)) : 1 < o := by
  by_contra hle
  push_neg at hle
  rw [compute_stake_of_le_one s o hle] at h
  exact lt_irrefl 0 h

/-- A hedge attempt never emits a BACK order call. -/
theorem hedgeActions_no_back (mid : String) (sel : ℤ) (st mt : ℚ)
    (b : MarketBook) (mid2 : String) (sel2 : ℤ) (sz p : ℚ) :
    Action.backOrder mid2 sel2 sz p ∉ hedgeActions mid sel st mt b := by
  by_cases h : pyTruthyQ (safe_best_lay
      (b.runners.find? fun r => r.selection_id == sel)) = true
  · simp [hedgeActions, h]
  · simp [hedgeActions, h]

/-- A hedge attempt emits at most one LAY order call. -/
theorem countLay_hedgeActions_le (mid : String) (sel : ℤ) (st mt : ℚ)
    (b : MarketBook) : countLay (hedgeActions mid sel st mt b) ≤ 1 := by
  by_cases h : pyTruthyQ (safe_best_lay
      (b.runners.find? fun r => r.selection_id == sel)) = true
  · simp [hedgeActions, h, countLay, isLay]
  · simp [hedgeActions, h, countLay]

/-- The monitor loop never emits a BACK order call. -/
theorem monitor_no_back (co : ℕ) (mid : String) (sel : ℤ) (st mt : ℚ) :
    ∀ (polls : List MonPoll) (mid2 : String) (sel2 : ℤ) (sz p : ℚ),
      Action.backOrder mid2 sel2 sz p ∉ monitor co mid sel st mt polls := by
  intro polls
  induction polls with
  | nil => intro mid2 sel2 sz p; simp [monitor]
  | cons q rest ih =>
    intro mid2 sel2 sz p
    obtain ⟨f, bk⟩ := q
    cases f with
    | err => rw [monitor]; exact ih mid2 sel2 sz p
    | empty => rw [monitor]; exact ih mid2 sel2 sz p
    | snap el hg ag =>
      cases bk with
      | raised =>
        rw [monitor]
        split
        · intro hmem
          rcases List.mem_cons.mp hmem with h | h
          · cases h
          · exact ih mid2 sel2 sz p h
        · split
          · intro hmem
            rcases List.mem_cons.mp hmem with h | h
            · cases h
            · exact ih mid2 sel2 sz p h
          · exact ih mid2 sel2 sz p
      | missing =>
        rw [monitor]
        split
        · simp
        · split
          · simp
          · exact ih mid2 sel2 sz p
      | ok b =>
        rw [monitor]
        split
        · intro hmem
          rcases List.mem_cons.mp hmem with h | h
          · cases h
          · exact hedgeActions_no_back mid sel st mt b mid2 sel2 sz p h
        · split
          · intro hmem
            rcases List.mem_cons.mp hmem with h | h
            · cases h
            · exact hedgeActions_no_back mid sel st mt b mid2 sel2 sz p h
          · exact ih mid2 sel2 sz p

/-- The monitor loop emits at most one LAY order call, over any run: a
completed hedge attempt always terminates the loop, and the re-polling
paths (fetch error, empty response, raised book fetch at a trigger) place
no lay before recursing. -/
theorem countLay_monitor_le (co : ℕ) (mid : String) (sel : ℤ) (st mt : ℚ) :
    ∀ polls : List MonPoll, countLay (monitor co mid sel st mt polls) ≤ 1 := by
  intro polls
  induction polls with
  | nil => simp [monitor, countLay]
  | cons q rest ih =>
    obtain ⟨f, bk⟩ := q
    cases f with
    | err => rw [monitor]; exact ih
    | empty => rw [monitor]; exact ih
    | snap el hg ag =>
      cases bk with
      | raised =>
        rw [monitor]
        split
        · simpa [countLay, List.filter_cons, isLay] using ih
        · split
          · simpa [countLay, List.filter_cons, isLay] using ih
          · exact ih
      | missing =>
        rw [monitor]
        split
        · simp [countLay, isLay]
        · split
          · simp [countLay, isLay]
          · exact ih
      | ok b =>
        rw [monitor]
        split
        · simpa [countLay, isLay] using countLay_hedgeActions_le mid sel st mt b
        · split
          · simpa [countLay, isLay] using countLay_hedgeActions_le mid sel st mt b
          · exact ih

/-- What a successful entry decision pins down: the stake is the Stake Sizer
output at the entry price, it is positive, and the entry price is above 1
and at most the configured maximum. -/
theorem entryDecision_spec (s : Settings) (m : CatalogueMarket) (book : MarketBook)
    (sel : ℤ) (bb st : ℚ) (h : entryDecision s m book = some (sel, bb, st)) :
    st = compute_stake_for_liability s (some bb) ∧ 0 < st ∧ 1 < bb ∧
      bb ≤ s.max_price.getD 50 := by
  unfold entryDecision at h
  rcases hr : resolveSelection m book with _ | ⟨sel', r⟩ <;> rw [hr] at h <;>
    dsimp only at h
  · cases h
  · rcases hb : safe_best_back (some r) with _ | bb' <;> rw [hb] at h <;>
      dsimp only at h
    · cases h
    · by_cases hmp : bb' > s.max_price.getD 50
      · rw [if_pos hmp] at h; cases h
      · rw [if_neg hmp] at h
        by_cases hz : compute_stake_for_liability s (some bb') ≤ 0
        · rw [if_pos hz] at h; cases h
        · rw [if_neg hz] at h
          obtain ⟨rfl, rfl, rfl⟩ : sel' = sel ∧ bb' = bb ∧
              compute_stake_for_liability s (some bb') = st := by
            simpa using h
          push_neg at hz hmp
          exact ⟨rfl, hz, one_lt_of_compute_stake_pos s bb' hz, hmp⟩

/-- The entry filter rejects whenever the minute is absent, a goal count is
nonzero, or the minute is outside the window. -/
theorem entry_filter_false_of (s : Settings) (e : FixtureSnapshot)
    (h : e.elapsed = none ∨ e.goals_home.getD 0 ≠ 0 ∨ e.goals_away.getD 0 ≠ 0 ∨
      ∀ m, e.elapsed = some m → m < s.min_minute ∨ s.max_minute < m) :
    passesEntryFilter s e = false := by
  unfold passesEntryFilter
  rcases hel : e.elapsed with _ | m
  · rfl
  · dsimp only
    rcases h with h0 | h1 | h2 | h3
    · rw [hel] at h0; exact Option.noConfusion h0
    · rw [if_pos (Or.inl h1)]
    · rw [if_pos (Or.inr h2)]
    · by_cases hg : e.goals_home.getD 0 ≠ 0 ∨ e.goals_away.getD 0 ≠ 0
      · rw [if_pos hg]
      · rw [if_neg hg]
        rcases h3 m hel with hlt | hgt
        · simp only [decide_eq_false_iff_not]; omega
        · simp only [decide_eq_false_iff_not]; omega

/-! ## Claim theorems -/

/-- C6: for every possibly-incomplete runner object — absent runner, absent
exchange-prices attribute, absent or empty price ladder, or a top entry with
no price — `safe_best_back` and `safe_best_lay` agree with the spec chain
"top-of-ladder price, or absent at the first missing link".  Both sides are
total Lean functions, so no input can raise. -/
theorem quote_accessor_never_raises (runner : Option BookRunner) :
    safe_best_back runner = specTopBack runner ∧
      safe_best_lay runner = specTopLay runner := by
  cases runner with
  | none => exact ⟨rfl, rfl⟩
  | some r =>
    obtain ⟨sid, ex⟩ := r
    cases ex with
    | none => exact ⟨rfl, rfl⟩
    | some e =>
      obtain ⟨atb, atl⟩ := e
      constructor
      · cases atb with
        | none => rfl
        | some l => cases l with | nil => rfl | cons a t => rfl
      · cases atl with
        | none => rfl
        | some l => cases l with | nil => rfl | cons a t => rfl

/-- C5: the Candidate Detector — both the filter at the top of
`handle_match` and its duplicate in the `main_loop` prefilter — never
accepts a fixture whose elapsed minute is absent, whose goal counts are not
both zero, or whose minute lies outside `[min_minute, max_minute]`; in that
case `handle_match` produces no action at all (no market search, no
orders). -/
theorem detector_rejects (s : Settings) (e : FixtureSnapshot) (env : HandleEnv)
    (h : e.elapsed = none ∨ e.goals_home.getD 0 ≠ 0 ∨ e.goals_away.getD 0 ≠ 0 ∨
      ∀ m, e.elapsed = some m → m < s.min_minute ∨ s.max_minute < m) :
    passesEntryFilter s e = false ∧ mainLoopPrefilter s e = false ∧
      handle_match s e env = [] := by
  have hp : passesEntryFilter s e = false := entry_filter_false_of s e h
  exact ⟨hp, hp, by simp [handle_match, hp]⟩

/-- Witness for C5 at a concrete fixture with an absent elapsed minute. -/
theorem detector_rejects_witness :
    passesEntryFilter exSettings exNoMinute = false ∧
      mainLoopPrefilter exSettings exNoMinute = false ∧
      handle_match exSettings exNoMinute envLayWorse = [] :=
  detector_rejects exSettings exNoMinute envLayWorse (Or.inl rfl)

/-- C4: odds at most 1.0 (or an absent odds value) make the Stake Sizer
return 0, and a back entry order call only ever carries a price above 1 and
a positive stake — so no entry order is placed for such a quote. -/
theorem stake_zero_on_low_odds :
    (∀ (s : Settings) (o : Option ℚ), o.getD 0 ≤ 1 →
        compute_stake_for_liability s o = 0) ∧
    ∀ (s : Settings) (e : FixtureSnapshot) (env : HandleEnv) (mid : String)
      (sel : ℤ) (sz p : ℚ),
      Action.backOrder mid sel sz p ∈ handle_match s e env → 1 < p ∧ 0 < sz := by
  constructor
  · intro s o h
    cases o with
    | none => rfl
    | some q => exact compute_stake_of_le_one s q (by simpa using h)
  · intro s e env mid sel sz p hmem
    unfold handle_match at hmem
    by_cases hf : passesEntryFilter s e = true
    · rw [if_pos hf] at hmem
      rcases hm : retryFind env.marketAttempts with _ | m <;> rw [hm] at hmem <;>
        dsimp only at hmem
      · cases hmem
      · rcases hb : env.book with _ | book <;> rw [hb] at hmem <;>
          dsimp only at hmem
        · cases hmem
        · rcases hd : entryDecision s m book with _ | ⟨sel', bb, st⟩ <;>
            rw [hd] at hmem <;> dsimp only at hmem
          · cases hmem
          · rcases List.mem_cons.mp hmem with he | ht
            · obtain ⟨hmid, hsel, hsz, hp⟩ := Action.backOrder.inj he
              obtain ⟨-, hst, hbb, -⟩ := entryDecision_spec s m book sel' bb st hd
              subst hsz
              subst hp
              exact ⟨hbb, hst⟩
            · exact absurd ht (monitor_no_back _ _ _ _ _ env.polls mid sel sz p)
    · rw [if_neg hf] at hmem; cases hmem

/-- Witness for C4: the Stake Sizer returns 0 at odds 1/2, and the entry
order of the `envLayWorse` run has price 2 > 1 and stake 2 > 0. -/
theorem stake_zero_on_low_odds_witness :
    compute_stake_for_liability exSettings (some (1/2)) = 0 ∧
      (1 < (2:ℚ) ∧ 0 < (2:ℚ)) :=
  ⟨stake_zero_on_low_odds.1 exSettings (some (1/2)) (by norm_num),
   stake_zero_on_low_odds.2 exSettings exSnap envLayWorse "1.23" 7 2 2
     (by with_unfolding_all decide)⟩

/-- C7: the Market Resolver prefers the first exact case-insensitive name
match over any fuzzy match, wherever the fuzzy match sits in the catalogue
list; without an exact match it returns the first fuzzy match; the retry
loop reports "no market" exactly when every one of the configured attempts
failed, and in that case `handle_match` abandons the fixture with no order
call at all. -/
theorem market_resolution_order :
    (∀ (ms : List CatalogueMarket) (m : CatalogueMarket),
        ms.find? (fun x => isExactOver15 x.market_name) = some m →
        find_over15_market ms = some m) ∧
    (∀ ms : List CatalogueMarket,
        ms.find? (fun x => isExactOver15 x.market_name) = none →
        find_over15_market ms = ms.find? fun x => isFuzzyOver15 x.market_name) ∧
    (∀ (s : Settings) (attempts : List (Option CatalogueMarket)),
        attempts.length = s.market_check_retry →
        (retryFind attempts = none ↔ ∀ a ∈ attempts, a = none)) ∧
    (∀ (s : Settings) (e : FixtureSnapshot) (env : HandleEnv),
        retryFind env.marketAttempts = none → handle_match s e env = []) := by
  refine ⟨?_, ?_, ?_, ?_⟩
  · intro ms m h
    unfold find_over15_market
    rw [h]
  · intro ms h
    unfold find_over15_market
    rw [h]
  · intro s attempts hlen
    clear hlen
    induction attempts with
    | nil => simp [retryFind]
    | cons a rest ih =>
      cases a with
      | none => simpa [retryFind] using ih
      | some m => simp [retryFind]
  · intro s e env h
    unfold handle_match
    rw [h]
    split <;> rfl

/-- Witness for C7: the exact market wins although a fuzzy match comes
first, and three failed attempts yield "no market". -/
theorem market_resolution_order_witness :
    find_over15_market [exFuzzyMarket, exCatMarket] = some exCatMarket ∧
      retryFind [none, none, none] = none :=
  ⟨market_resolution_order.1 [exFuzzyMarket, exCatMarket] exCatMarket (by decide),
   (market_resolution_order.2.2.1 exSettings [none, none, none] rfl).mpr (by decide)⟩

/-- C8 counterexample: a goal fires at the first poll, but `get_market_book`
raises inside the triggered branch; the loop-wide `except` (bot.py 403-405)
catches it, the loop re-polls, the still-standing goal fires the trigger a
second time, and this second hedge attempt places the LAY — so after the
first ExitTrigger fired, further polling and a second hedge attempt did
occur, against the claim.  The last conjunct pins the lay call strictly
after the first trigger. -/
theorem monitor_retrigger_counterexample :
    monitor 71 "1.23" 7 2 2 exRaisePolls =
      [Action.goalTrigger, Action.goalTrigger,
       Action.layOrder "1.23" 7 2 (3/2)] ∧
      monitor 71 "1.23" 7 2 2
          [{ fetch := .snap (some 12) (some 1) (some 0), book := .raised }] =
        [Action.goalTrigger] ∧
      Action.layOrder "1.23" 7 2 (3/2) ∈
        (monitor 71 "1.23" 7 2 2 exRaisePolls).drop 1 := by
  refine ⟨?_, ?_, ?_⟩ <;> with_unfolding_all decide

/-- C8 amended: on every poll the goal test precedes the time test, so a
nonzero goal count yields `GoalScored` even when the cash-out minute has
been reached.  What happens at a fired trigger depends on the cash-out book
fetch: a returned book yields exactly one hedge attempt and termination (the
equation does not mention the remaining polls); a fetch that returns nothing
terminates with no hedge; but a fetch that raises is caught by the same
handler as transient fixture-fetch errors and the monitor re-enters polling,
so the trigger can fire again and a further hedge attempt can occur later.
Transient fixture-fetch errors never terminate the loop, and any run places
at most one LAY order call, because a completed hedge attempt always
terminates the loop. -/
theorem monitor_semantics_amended :
    (∀ (co : ℕ) (mid : String) (sel : ℤ) (st mt : ℚ) (el : Option ℕ)
        (hg ag : Option ℕ) (b : MarketBook) (rest : List MonPoll),
        hg.getD 0 ≠ 0 ∨ ag.getD 0 ≠ 0 →
        monitor co mid sel st mt
            ({ fetch := .snap el hg ag, book := .ok b } :: rest) =
          Action.goalTrigger :: hedgeActions mid sel st mt b) ∧
    (∀ (co : ℕ) (mid : String) (sel : ℤ) (st mt : ℚ) (el : Option ℕ)
        (hg ag : Option ℕ) (rest : List MonPoll),
        hg.getD 0 ≠ 0 ∨ ag.getD 0 ≠ 0 →
        monitor co mid sel st mt
            ({ fetch := .snap el hg ag, book := .missing } :: rest) =
          [Action.goalTrigger]) ∧
    (∀ (co : ℕ) (mid : String) (sel : ℤ) (st mt : ℚ) (el : Option ℕ)
        (hg ag : Option ℕ) (rest : List MonPoll),
        hg.getD 0 ≠ 0 ∨ ag.getD 0 ≠ 0 →
        monitor co mid sel st mt
            ({ fetch := .snap el hg ag, book := .raised } :: rest) =
          Action.goalTrigger :: monitor co mid sel st mt rest) ∧
    (∀ (co : ℕ) (mid : String) (sel : ℤ) (st mt : ℚ) (el : Option ℕ)
        (hg ag : Option ℕ) (b : MarketBook) (rest : List MonPoll),
        hg.getD 0 = 0 → ag.getD 0 = 0 → el.getD 0 ≥ co →
        monitor co mid sel st mt
            ({ fetch := .snap el hg ag, book := .ok b } :: rest) =
          Action.timeTrigger :: hedgeActions mid sel st mt b) ∧
    (∀ (co : ℕ) (mid : String) (sel : ℤ) (st mt : ℚ) (el : Option ℕ)
        (hg ag : Option ℕ) (rest : List MonPoll),
        hg.getD 0 = 0 → ag.getD 0 = 0 → el.getD 0 ≥ co →
        monitor co mid sel st mt
            ({ fetch := .snap el hg ag, book := .raised } :: rest) =
          Action.timeTrigger :: monitor co mid sel st mt rest) ∧
    (∀ (co : ℕ) (mid : String) (sel : ℤ) (st mt : ℚ) (bk : BookFetch)
        (rest : List MonPoll),
        monitor co mid sel st mt ({ fetch := .err, book := bk } :: rest) =
          monitor co mid sel st mt rest) ∧
    (∀ (co : ℕ) (mid : String) (sel : ℤ) (st mt : ℚ) (polls : List MonPoll),
        countLay (monitor co mid sel st mt polls) ≤ 1) := by
  refine ⟨?_, ?_, ?_, ?_, ?_, ?_, ?_⟩
  · intro co mid sel st mt el hg ag b rest h
    rw [monitor, if_pos h]
  · intro co mid sel st mt el hg ag rest h
    rw [monitor, if_pos h]
  · intro co mid sel st mt el hg ag rest h
    rw [monitor, if_pos h]
  · intro co mid sel st mt el hg ag b rest h1 h2 h3
    rw [monitor, if_neg (by simp [h1, h2]), if_pos h3]
  · intro co mid sel st mt el hg ag rest h1 h2 h3
    rw [monitor, if_neg (by simp [h1, h2]), if_pos h3]
  · intro co mid sel st mt bk rest
    rw [monitor]
  · exact fun co mid sel st mt polls => countLay_monitor_le co mid sel st mt polls

/-- Witness for C8 amended at a concrete poll: a goal at minute 80 (past the
cash-out minute 71) still fires the goal trigger, with one hedge attempt and
termination since the book fetch returned a book. -/
theorem monitor_semantics_amended_witness :
    monitor 71 "1.23" 7 2 2
        [{ fetch := .snap (some 80) (some 1) (some 0), book := .ok exHedgeBookSafe }] =
      Action.goalTrigger :: hedgeActions "1.23" 7 2 2 exHedgeBookSafe :=
  monitor_semantics_amended.1 71 "1.23" 7 2 2 (some 80) (some 1) (some 0)
    exHedgeBookSafe [] (by decide)

/-- C2 counterexample: a run whose entry BACK order fills at price 2.0 and
whose cash-out book offers only a lay at 2.3 — worse than the entry price —
still places the LAY order at 2.3.  The source (bot.py 377-379) tests only
`if lay_price:`; it never compares the lay price with the entry back
price. -/
theorem lay_guard_counterexample :
    handle_match exSettings exSnap envLayWorse =
      [Action.backOrder "1.23" 7 2 2, Action.goalTrigger,
       Action.layOrder "1.23" 7 2 (23/10)] ∧
      ¬((23:ℚ)/10 < 2) := by
  constructor
  · with_unfolding_all decide
  · norm_num

/-- A LAY order call appears in a completed trigger branch exactly when the
book fetch returned a book yielding a truthy best lay price for the held
selection. -/
theorem layOrder_mem_hedge_iff (mid : String) (sel : ℤ) (st mt : ℚ)
    (bk : BookFetch) (hbk : bk ≠ BookFetch.raised) :
    (∃ sz p, Action.layOrder mid sel sz p ∈
        (match bk with
          | .raised => ([] : List Action)
          | .missing => []
          | .ok b => hedgeActions mid sel st mt b)) ↔
      ∃ b, bk = BookFetch.ok b ∧
        pyTruthyQ (safe_best_lay
          (b.runners.find? fun r => r.selection_id == sel)) = true := by
  cases bk with
  | raised => exact absurd rfl hbk
  | missing => simp
  | ok b =>
    by_cases hp : pyTruthyQ (safe_best_lay
        (b.runners.find? fun r => r.selection_id == sel)) = true
    · constructor
      · intro _
        exact ⟨b, rfl, hp⟩
      · intro _
        refine ⟨if mt ≠ 0 then mt else st,
          (safe_best_lay (b.runners.find? fun r => r.selection_id == sel)).getD 0, ?_⟩
        simp [hedgeActions, hp]
    · constructor
      · intro ⟨sz, p, hmem⟩
        simp [hedgeActions, hp] at hmem
      · intro ⟨b', hb', hp'⟩
        obtain rfl : b = b' := by injection hb'
        exact absurd hp' hp

/-- C2 amended: on any monitoring run in which an ExitTrigger fires — goal
or time — and the cash-out book fetch completes (returns a book or
nothing, rather than raising, the case in which the monitor re-polls), a
LAY order call is observed exactly when the returned book yields a truthy
(present and nonzero) best lay price for the held selection; with no such
price the monitor ends with no hedge order call.  No comparison against
the entry back price takes place: the entry price is not even an input of
the monitor loop. -/
theorem hedge_iff_lay_available :
    (∀ (co : ℕ) (mid : String) (sel : ℤ) (st mt : ℚ) (el : Option ℕ)
        (hg ag : Option ℕ) (bk : BookFetch) (rest : List MonPoll),
        hg.getD 0 ≠ 0 ∨ ag.getD 0 ≠ 0 → bk ≠ BookFetch.raised →
        ((∃ sz p, Action.layOrder mid sel sz p ∈ monitor co mid sel st mt
            ({ fetch := .snap el hg ag, book := bk } :: rest)) ↔
          ∃ b, bk = BookFetch.ok b ∧
            pyTruthyQ (safe_best_lay
              (b.runners.find? fun r => r.selection_id == sel)) = true)) ∧
    ∀ (co : ℕ) (mid : String) (sel : ℤ) (st mt : ℚ) (el : Option ℕ)
      (hg ag : Option ℕ) (bk : BookFetch) (rest : List MonPoll),
      hg.getD 0 = 0 → ag.getD 0 = 0 → el.getD 0 ≥ co → bk ≠ BookFetch.raised →
      ((∃ sz p, Action.layOrder mid sel sz p ∈ monitor co mid sel st mt
          ({ fetch := .snap el hg ag, book := bk } :: rest)) ↔
        ∃ b, bk = BookFetch.ok b ∧
          pyTruthyQ (safe_best_lay
            (b.runners.find? fun r => r.selection_id == sel)) = true) := by
  constructor
  · intro co mid sel st mt el hg ag bk rest htrig hbk
    cases bk with
    | raised => exact absurd rfl hbk
    | missing =>
      rw [monitor, if_pos htrig]
      rw [iff_iff_implies_and_implies]
      constructor
      · rintro ⟨sz, p, hmem⟩
        rcases List.mem_cons.mp hmem with he | ht
        · exact Action.noConfusion he
        · cases ht
      · rintro ⟨b, hb, -⟩
        exact BookFetch.noConfusion hb
    | ok b =>
      rw [monitor, if_pos htrig]
      rw [iff_iff_implies_and_implies]
      constructor
      · rintro ⟨sz, p, hmem⟩
        rcases List.mem_cons.mp hmem with he | ht
        · exact Action.noConfusion he
        · exact (layOrder_mem_hedge_iff mid sel st mt (.ok b) (by simp)).mp ⟨sz, p, ht⟩
      · intro hex
        obtain ⟨sz, p, hmem⟩ :=
          (layOrder_mem_hedge_iff mid sel st mt (.ok b) (by simp)).mpr hex
        exact ⟨sz, p, List.mem_cons_of_mem _ hmem⟩
  · intro co mid sel st mt el hg ag bk rest hg0 ag0 htime hbk
    cases bk with
    | raised => exact absurd rfl hbk
    | missing =>
      rw [monitor, if_neg (by simp [hg0, ag0]), if_pos htime]
      rw [iff_iff_implies_and_implies]
      constructor
      · rintro ⟨sz, p, hmem⟩
        rcases List.mem_cons.mp hmem with he | ht
        · exact Action.noConfusion he
        · cases ht
      · rintro ⟨b, hb, -⟩
        exact BookFetch.noConfusion hb
    | ok b =>
      rw [monitor, if_neg (by simp [hg0, ag0]), if_pos htime]
      rw [iff_iff_implies_and_implies]
      constructor
      · rintro ⟨sz, p, hmem⟩
        rcases List.mem_cons.mp hmem with he | ht
        · exact Action.noConfusion he
        · exact (layOrder_mem_hedge_iff mid sel st mt (.ok b) (by simp)).mp ⟨sz, p, ht⟩
      · intro hex
        obtain ⟨sz, p, hmem⟩ :=
          (layOrder_mem_hedge_iff mid sel st mt (.ok b) (by simp)).mpr hex
        exact ⟨sz, p, List.mem_cons_of_mem _ hmem⟩

/-- Witness for C2 amended: with a goal scored and a returned book whose
lay price is 1.5, a LAY order call is observed. -/
theorem hedge_iff_lay_available_witness :
    ∃ sz p, Action.layOrder "1.23" 7 sz p ∈
      monitor 71 "1.23" 7 2 0
        [{ fetch := .snap (some 20) (some 1) (some 0), book := .ok exHedgeBookSafe }] :=
  (hedge_iff_lay_available.1 71 "1.23" 7 2 0 (some 20) (some 1) (some 0)
      (.ok exHedgeBookSafe) [] (by decide) (by decide)).mpr
    ⟨exHedgeBookSafe, rfl, by with_unfolding_all decide⟩

/-- C1, recording the failing behaviour: `envEntryFail` models the entry
placement failing (`place_back_order` returns `None` on an exchange
rejection, connection failure or raised exception, bot.py 213-215), yet
`handle_match` still enters the monitoring loop (the result of
`place_back_order` is never tested before `await wait_and_cashout()`,
bot.py 333-408) and, once a goal fires, places a hedge LAY order call of
size `matched_size or stake` = stake — a naked lay for a position that was
never opened.  The claim (and bot.py's own design of returning `None` as
the failure signal) says this run should abandon with no monitoring and no
LAY call. -/
theorem entry_failure_still_monitors_and_lays :
    handle_match exSettings exSnap envEntryFail =
      [Action.backOrder "1.23" 7 2 2, Action.goalTrigger,
       Action.layOrder "1.23" 7 2 (3/2)] ∧
    matchedSize envEntryFail.backPlace 2 = 0 := by
  constructor
  · with_unfolding_all decide
  · rfl

/-- C3 counterexample: with odds 2.0, `max_test_liability` 1.0,
`min_back_stake` 2.0 and a configured `test_stake_cap` of 1.5, the
liability-target stake 1.0 is floored up to 2.0 and then capped down to
1.5.  The implied liability (2-1)*1.5 = 1.5 exceeds the cap 1.0, yet the
returned stake 1.5 is not the `min_back_stake` floor — so liability can
exceed the cap outside the documented floor-override case as it is stated
in the claim. -/
theorem liability_cap_counterexample :
    compute_stake_for_liability exSettingsCap (some 2) = 3/2 ∧
      (2 - 1) * compute_stake_for_liability exSettingsCap (some 2) >
        exSettingsCap.max_test_liability.getD 1 ∧
      compute_stake_for_liability exSettingsCap (some 2) ≠
        exSettingsCap.min_back_stake.getD 2 := by
  refine ⟨?_, ?_, ?_⟩ <;> with_unfolding_all decide

/-- C3 amended: in liability mode, whenever the liability-target stake
`max_test_liability / (odds - 1)` is at least the venue minimum (the floor
does not engage), the implied liability of the returned stake is at most
`max_test_liability` plus the 2-decimal rounding slack `(odds - 1)/200`
(half a currency cent of stake); when the target falls below the venue
minimum, the returned stake is `min(min_back_stake, test_stake_cap)`
rounded, and only then may liability exceed the cap materially. -/
theorem liability_bound_amended (s : Settings) (o : ℚ)
    (htm : s.test_mode.getD true = true)
    (hlm : s.min_liability_mode.getD true = true)
    (ho : 1 < o) :
    (s.min_back_stake.getD 2 ≤ s.max_test_liability.getD 1 / (o - 1) →
      (o - 1) * compute_stake_for_liability s (some o) ≤
        s.max_test_liability.getD 1 + (o - 1) / 200) ∧
    (s.max_test_liability.getD 1 / (o - 1) < s.min_back_stake.getD 2 →
      compute_stake_for_liability s (some o) =
        round2 (min (s.min_back_stake.getD 2)
          (s.test_stake_cap.getD (s.min_back_stake.getD 2)))) := by
  have ho1 : ¬(o ≤ 1) := not_le.mpr ho
  have hpos : (0:ℚ) < o - 1 := by linarith
  have hcond : (s.test_mode.getD true && s.min_liability_mode.getD true) = true := by
    rw [htm, hlm]; rfl
  unfold compute_stake_for_liability
  dsimp only
  rw [if_neg ho1, if_pos hcond]
  constructor
  · intro h
    rw [if_neg (not_lt.mpr h)]
    have hr := round2_le (min (s.max_test_liability.getD 1 / (o - 1))
      (s.test_stake_cap.getD (s.min_back_stake.getD 2)))
    have hm : min (s.max_test_liability.getD 1 / (o - 1))
        (s.test_stake_cap.getD (s.min_back_stake.getD 2)) ≤
        s.max_test_liability.getD 1 / (o - 1) := min_le_left _ _
    have h1 : round2 (min (s.max_test_liability.getD 1 / (o - 1))
        (s.test_stake_cap.getD (s.min_back_stake.getD 2))) ≤
        s.max_test_liability.getD 1 / (o - 1) + 1 / 200 := by linarith
    have h2 := mul_le_mul_of_nonneg_left h1 (le_of_lt hpos)
    have hc : s.max_test_liability.getD 1 / (o - 1) * (o - 1) =
        s.max_test_liability.getD 1 := div_mul_cancel₀ _ (ne_of_gt hpos)
    nlinarith [h2, hc]
  · intro h
    rw [if_pos h]

/-- Witness for C3 amended at odds 3, venue minimum 0.5: the liability of
the returned stake is at most 1 + 2/200. -/
theorem liability_bound_amended_witness :
    (3 - 1) * compute_stake_for_liability exSettingsHalf (some 3) ≤
      exSettingsHalf.max_test_liability.getD 1 + (3 - 1) / 200 :=
  (liability_bound_amended exSettingsHalf 3 rfl rfl (by norm_num)).1
    (by with_unfolding_all decide)

/-- C10: when `test_stake_cap` is absent from the configuration its default
is `min_back_stake`, so in liability mode the floored stake is capped right
back down to `min_back_stake`: the returned stake equals `min_back_stake`
for every odds above 1, whatever `max_test_liability` is.  The granularity
hypothesis says the configured venue minimum is an exact 2-decimal currency
amount, so the final rounding leaves it unchanged. -/
theorem default_cap_forces_min_stake (s : Settings) (o : ℚ)
    (htm : s.test_mode.getD true = true)
    (hlm : s.min_liability_mode.getD true = true)
    (hcap : s.test_stake_cap = none) (ho : 1 < o)
    (hgran : round2 (s.min_back_stake.getD 2) = s.min_back_stake.getD 2) :
    compute_stake_for_liability s (some o) = s.min_back_stake.getD 2 := by
  have ho1 : ¬(o ≤ 1) := not_le.mpr ho
  have hcond : (s.test_mode.getD true && s.min_liability_mode.getD true) = true := by
    rw [htm, hlm]; rfl
  unfold compute_stake_for_liability
  dsimp only
  rw [if_neg ho1, if_pos hcond, hcap, Option.getD_none]
  have hmin : min (if s.max_test_liability.getD 1 / (o - 1) <
        s.min_back_stake.getD 2 then s.min_back_stake.getD 2
      else s.max_test_liability.getD 1 / (o - 1)) (s.min_back_stake.getD 2) =
      s.min_back_stake.getD 2 := by
    split
    · exact min_self _
    · exact min_eq_right (le_of_not_lt (by assumption))
  rw [hmin, hgran]

/-- Witness for C10 at odds 7 under `exSettings` (no cap configured,
minimum stake 2): the returned stake is exactly 2. -/
theorem default_cap_forces_min_stake_witness :
    compute_stake_for_liability exSettings (some 7) =
      exSettings.min_back_stake.getD 2 :=
  default_cap_forces_min_stake exSettings 7 rfl rfl rfl (by norm_num)
    (by with_unfolding_all decide)

/-- Every event of cycle `n` carries cycle index `n`. -/
theorem eventCycle_of_mem_cycleEvents (s : Settings) (n : ℕ) (c : CycleInput)
    (x : OrchEvent) (hx : x ∈ cycleEvents s n c) : eventCycle x = n := by
  rcases List.mem_cons.mp hx with h | h
  · rw [h]; rfl
  · obtain ⟨fe, -, rfl⟩ := List.mem_map.mp h
    rfl

/-- Along the orchestrator trace the cycle indices are sorted and bounded
below by the starting index. -/
theorem traceFrom_sorted (s : Settings) :
    ∀ (cs : List CycleInput) (n0 : ℕ),
      List.Sorted (· ≤ ·) ((mainLoopTraceFrom s n0 cs).map eventCycle) ∧
      ∀ x ∈ mainLoopTraceFrom s n0 cs, n0 ≤ eventCycle x := by
  intro cs
  induction cs with
  | nil =>
    intro n0
    exact ⟨by simp [mainLoopTraceFrom, List.Sorted], by simp [mainLoopTraceFrom]⟩
  | cons c rest ih =>
    intro n0
    obtain ⟨ihs, ihb⟩ := ih (n0 + 1)
    have hall : ∀ y ∈ (cycleEvents s n0 c).map eventCycle, y = n0 := by
      intro y hy
      obtain ⟨x, hx, rfl⟩ := List.mem_map.mp hy
      exact eventCycle_of_mem_cycleEvents s n0 c x hx
    constructor
    · rw [mainLoopTraceFrom, List.map_append]
      rw [List.Sorted] at ihs ⊢
      rw [List.pairwise_append]
      refine ⟨?_, ihs, ?_⟩
      · exact List.pairwise_of_forall_mem_list fun a ha b hb => by
          rw [hall a ha, hall b hb]
      · intro a ha b hb
        rw [hall a ha]
        obtain ⟨x, hx, rfl⟩ := List.mem_map.mp hb
        exact le_trans (Nat.le_succ n0) (ihb x hx)
    · intro x hx
      rw [mainLoopTraceFrom] at hx
      rcases List.mem_append.mp hx with h | h
      · rw [eventCycle_of_mem_cycleEvents s n0 c x h]
      · exact le_trans (Nat.le_succ n0) (ihb x h)

/-- C9 amended: the orchestrator is blocking, not concurrent with its
monitors — `await asyncio.gather(*tasks)` (bot.py 436) joins every spawned
handler before the next cycle.  Formally: along the `main_loop` trace the
cycle indices never decrease, so whenever poll cycle `m` appears after some
prefix of the trace, every monitor-termination event after it belongs to
cycle `m` or later; equivalently, all of cycle `n`'s monitors terminate
before poll `n+1` starts. -/
theorem orchestrator_joins_before_next_poll :
    (∀ (s : Settings) (cs : List CycleInput),
        List.Sorted (· ≤ ·) ((main_loop_trace s cs).map eventCycle)) ∧
    ∀ (s : Settings) (cs : List CycleInput) (l r : List OrchEvent) (m n : ℕ)
      (fid : ℤ), main_loop_trace s cs = l ++ OrchEvent.pollCycle m :: r →
      OrchEvent.monitorDone n fid ∈ r → m ≤ n := by
  have hsorted : ∀ (s : Settings) (cs : List CycleInput),
      List.Sorted (· ≤ ·) ((main_loop_trace s cs).map eventCycle) :=
    fun s cs => (traceFrom_sorted s cs 0).1
  refine ⟨hsorted, ?_⟩
  intro s cs l r m n fid htr hmem
  have h1 := hsorted s cs
  rw [htr, List.map_append, List.map_cons] at h1
  rw [List.Sorted, List.pairwise_append] at h1
  have h2 := (List.pairwise_cons.mp h1.2.1).1
  exact h2 (eventCycle (OrchEvent.monitorDone n fid))
    (List.mem_map_of_mem eventCycle hmem)

/-- Witness for C9 amended at the concrete two-cycle run. -/
theorem orchestrator_joins_witness : (0:ℕ) ≤ 0 :=
  orchestrator_joins_before_next_poll.2 exSettings exCycles []
    [OrchEvent.monitorDone 0 101, OrchEvent.pollCycle 1] 0 0 101
    (by decide) (by decide)

/-- C9 counterexample: in a run with one spawned handler in cycle 0 and a
second cycle, the trace is poll 0, then the handler's termination, then
poll 1 — the next poll cycle starts only after the monitor has reached its
terminal state (index 1 before index 2), not concurrently with it. -/
theorem orchestrator_blocks_counterexample :
    main_loop_trace exSettings exCycles =
      [OrchEvent.pollCycle 0, OrchEvent.monitorDone 0 101, OrchEvent.pollCycle 1] ∧
      (main_loop_trace exSettings exCycles).get? 1 =
        some (OrchEvent.monitorDone 0 101) ∧
      (main_loop_trace exSettings exCycles).get? 2 =
        some (OrchEvent.pollCycle 1) := by
  refine ⟨?_, ?_, ?_⟩ <;> decide

end Over15Bot
